import Mathlib

/-!
Verification development for the personal-rag-system repository: a shallow
embedding of its chunk store, similarity search, embedding client, ingestion
loop, chunk-path conventions, context rendering and tabular-record adapter,
with theorems checking the specification's statements against the code.
-/

namespace RagSystem

/-! ## Chunk store (migration schema + `ingest-project` chunk-write step)

The `document_chunks` table has primary key `id UUID DEFAULT gen_random_uuid()`
and no unique constraint on `(project_id, file_path)`.  The ingestion script
writes each document with `supabase.from('document_chunks').upsert({...})`,
passing no `id` and no `onConflict` target, so the PostgREST upsert resolves
conflicts on the primary key only; the written row carries a freshly generated
id, hence never conflicts with an existing row.  We model id generation as a
`nextId` counter distinct from every id already in the store. -/

/-- A row of the `document_chunks` table (the columns the ingestion path
writes; timestamps are irrelevant to the claims and omitted). -/
structure StoredChunk where
  id : Nat
  project_id : String
  source_type : String
  file_path : String
  chunk_content : String
  metadata : List (String × String)
  embedding : List ℚ
deriving Repr, DecidableEq

/-- The column values of a chunk write issued by `ingestProject`
(everything except the primary key, which the database generates). -/
structure ChunkWrite where
  project_id : String
  source_type : String
  file_path : String
  chunk_content : String
  metadata : List (String × String)
  embedding : List ℚ
deriving Repr, DecidableEq

/-- PostgREST `upsert` with no `onConflict` parameter: insert the row,
updating in place any existing row whose primary key `id` matches. -/
def upsertById (store : List StoredChunk) (row : StoredChunk) : List StoredChunk :=
  if store.any (fun r => r.id = row.id) then
    store.map (fun r => if r.id = row.id then row else r)
  else
    store ++ [row]

/-- The chunk-write step of `ingestProject` for one document: build the row
from the document's fields with a database-generated fresh id and upsert it
(`supabase.from('document_chunks').upsert({ project_id, source_type,
file_path, chunk_content, metadata, embedding })`). -/
def ingestChunkWrite (store : List StoredChunk) (freshId : Nat) (w : ChunkWrite) :
    List StoredChunk :=
  upsertById store
    { id := freshId
      project_id := w.project_id
      source_type := w.source_type
      file_path := w.file_path
      chunk_content := w.chunk_content
      metadata := w.metadata
      embedding := w.embedding }

/-- Number of chunks stored for a given (project, origin path) key. -/
def countAtKey (store : List StoredChunk) (proj fp : String) : Nat :=
  (store.filter (fun r => r.project_id = proj && r.file_path = fp)).length

/-- A concrete chunk write: first ingestion of `src/a.ts` for project `p1`. -/
def writeV1 : ChunkWrite :=
  { project_id := "p1", source_type := "code", file_path := "src/a.ts"
    chunk_content := "v1", metadata := [], embedding := [1] }

/-- The same (project, origin path) re-ingested with changed content. -/
def writeV2 : ChunkWrite :=
  { project_id := "p1", source_type := "code", file_path := "src/a.ts"
    chunk_content := "v2", metadata := [], embedding := [2] }

/-! ## Similarity search (`search_similar_chunks` SQL function)

The SQL function filters `document_chunks` by the optional project filter and
by `1 - (dc.embedding <=> query_embedding) > similarity_threshold` (strict),
orders by `dc.embedding <=> query_embedding` ascending (i.e. by descending
similarity) and applies `LIMIT match_count`.  The pgvector cosine-distance
operator `<=>` belongs to the external store; we take it as a parameter
`dist` of the model, since every property claimed of the search holds for
any distance function. -/

/-- A row of the result table of `search_similar_chunks`, carrying the
computed `similarity` column. -/
structure SearchRow where
  id : Nat
  project_id : String
  source_type : String
  file_path : Option String
  chunk_content : String
  similarity : ℚ
deriving Repr, DecidableEq

/-- Projection of a stored chunk to a search-result row with its computed
similarity `1 - (embedding <=> query)`. -/
def toSearchRow (dist : List ℚ → List ℚ → ℚ) (query : List ℚ) (c : StoredChunk) :
    SearchRow :=
  { id := c.id, project_id := c.project_id, source_type := c.source_type
    file_path := some c.file_path, chunk_content := c.chunk_content
    similarity := 1 - dist c.embedding query }

/-- The `search_similar_chunks` SQL function over a model table:
`WHERE (project_filter IS NULL OR dc.project_id = project_filter) AND
1 - (dc.embedding <=> query_embedding) > similarity_threshold
ORDER BY dc.embedding <=> query_embedding LIMIT match_count`. -/
def search_similar_chunks (dist : List ℚ → List ℚ → ℚ) (table : List StoredChunk)
    (query_embedding : List ℚ) (project_filter : Option String)
    (similarity_threshold : ℚ) (match_count : Nat) : List SearchRow :=
  let matching := table.filter (fun dc =>
    (match project_filter with
     | none => true
     | some p => decide (dc.project_id = p)) &&
    decide (1 - dist dc.embedding query_embedding > similarity_threshold))
  let ordered := matching.insertionSort
    (fun a b => dist a.embedding query_embedding ≤ dist b.embedding query_embedding)
  (ordered.take match_count).map (toSearchRow dist query_embedding)

/-! ## Embedding service (`embedding-service.ts`)

`generateEmbedding` submits `text.substring(0, 8000)` and returns
`response.data[0].embedding`; `generateBatchEmbeddings` walks the input in
slices of 100, submits each slice (each text truncated to 8000 characters) as
one request, concatenates the per-request vectors in order, and rethrows any
request error.  The external OpenAI call is a parameter: `req` maps a request
input (list of texts) to either an error or one vector per input text.  The
OpenAI API contract that request outputs align one-to-one, in order, with
request inputs is expressed by instantiating `req` with `fun input =>
Except.ok (input.map model)` for a per-text `model`. -/

/-- JavaScript `text.substring(0, 8000)`: the first 8000 characters. -/
def truncate8000 (text : String) : String :=
  text.take 8000

/-- The `generateEmbedding` method under the per-text API contract `model`:
it submits the truncated text and returns the single returned vector
(`response.data[0].embedding`). -/
def generateEmbedding (model : String → List ℚ) (text : String) : List ℚ :=
  model (truncate8000 text)

/-- The batch loop of `generateBatchEmbeddings`, instrumented with the list
of request inputs actually issued.  Each round takes `texts.slice(i, i+100)`,
truncates each text, issues one request, and either stops with the request's
error (the TS method rethrows it, issuing no further requests) or prepends
this round's vectors to the remaining rounds' output.  `fuel` is an upper
bound on the number of rounds (the caller passes `texts.length`). -/
def generateBatchEmbeddingsGo (req : List String → Except String (List (List ℚ))) :
    Nat → List String → List (List String) × Except String (List (List ℚ))
  | 0, _ => ([], Except.ok [])
  | _ + 1, [] => ([], Except.ok [])
  | fuel + 1, texts =>
    let input := (texts.take 100).map truncate8000
    match req input with
    | Except.error e => ([input], Except.error e)
    | Except.ok vs =>
      let rest := generateBatchEmbeddingsGo req fuel (texts.drop 100)
      (input :: rest.1,
       match rest.2 with
       | Except.error e => Except.error e
       | Except.ok ws => Except.ok (vs ++ ws))

/-- The `generateBatchEmbeddings` method: value returned to the caller. -/
def generateBatchEmbeddings (req : List String → Except String (List (List ℚ)))
    (texts : List String) : Except String (List (List ℚ)) :=
  (generateBatchEmbeddingsGo req texts.length texts).2

/-- The sequence of request inputs `generateBatchEmbeddings` issues to the
API, in order. -/
def issuedRequests (req : List String → Except String (List (List ℚ)))
    (texts : List String) : List (List String) :=
  (generateBatchEmbeddingsGo req texts.length texts).1

/-- Consecutive slices of at most 100 elements (`texts.slice(i, i + 100)` for
`i = 0, 100, 200, ...`); `fuel` bounds the number of slices. -/
def batchesGo : Nat → List String → List (List String)
  | 0, _ => []
  | _ + 1, [] => []
  | fuel + 1, texts => texts.take 100 :: batchesGo fuel (texts.drop 100)

/-- The batch partition of the input list: consecutive slices of at most
100 texts. -/
def batches (texts : List String) : List (List String) :=
  batchesGo texts.length texts

/-! ## Ingestion loop (`scripts/ingest-project.ts`, `ingestProject`)

For each collected document the script runs, inside a per-document
`try/catch`: embed the content, then upsert a `document_chunks` row.  The
`catch` only logs (`console.error`) and the loop continues; the only
`process.exit(1)` sits in the outer `catch`, which per-document failures
never reach.  The script slices the document list into groups of 50 with a
delay between groups; the slicing affects neither the store, the error log,
nor the exit status, so the model folds over the documents in order.  The
embedding-and-upsert outcome for a document is a parameter `embedOf`
(the external call may fail). -/

/-- A document produced by a processor (`ProcessedDocument` in
`code-processor.ts`, restricted to the fields the chunk-write step reads). -/
structure ProcessedDocument where
  content : String
  filePath : String
  projectId : String
  sourceType : String
  metadata : List (String × String)
deriving Repr, DecidableEq

/-- State threaded through the ingestion loop: the chunk store, the next
database-generated id, and the errors logged by `console.error`. -/
structure IngestState where
  store : List StoredChunk
  nextId : Nat
  loggedErrors : List String
deriving Repr, DecidableEq

/-- One iteration of the per-document loop: on embedding failure the error is
logged and the document skipped; on success the chunk row is upserted. -/
def processDocument (embedOf : String → Except String (List ℚ))
    (st : IngestState) (doc : ProcessedDocument) : IngestState :=
  match embedOf doc.content with
  | Except.error e =>
    { st with loggedErrors := st.loggedErrors ++ [e] }
  | Except.ok emb =>
    { store := ingestChunkWrite st.store st.nextId
        { project_id := doc.projectId, source_type := doc.sourceType
          file_path := doc.filePath, chunk_content := doc.content
          metadata := doc.metadata, embedding := emb }
      nextId := st.nextId + 1
      loggedErrors := st.loggedErrors }

/-- The whole per-document loop of `ingestProject`. -/
def processDocuments (embedOf : String → Except String (List ℚ))
    (st : IngestState) (docs : List ProcessedDocument) : IngestState :=
  docs.foldl (processDocument embedOf) st

/-- The `ingestProject` run reduced to its observable outcome: final state
and process exit code.  `projectSetup` models the project lookup/creation and
document collection (failures there reach the outer `catch`), `kbGen` models
`generateContextFiles`.  Per-document failures are caught inside the loop, so
the run falls through to the success path with exit code 0. -/
def ingestProjectRun (projectSetup : Except String Unit)
    (embedOf : String → Except String (List ℚ)) (kbGen : Except String Unit)
    (docs : List ProcessedDocument) (st : IngestState) : IngestState × Nat :=
  match projectSetup with
  | Except.error _ => (st, 1)
  | Except.ok _ =>
    let st2 := processDocuments embedOf st docs
    match kbGen with
    | Except.error _ => (st2, 1)
    | Except.ok _ => (st2, 0)

/-! ## Chunk origin paths (`code-processor.ts` / `generator.ts`)

`processCodeRepository` stores each chunk with origin path
`` `${file}${chunks.length > 1 ? `#chunk-${i + 1}` : ''}` `` and
`generateCodeSummaries` regroups chunks by `chunk.file_path?.split('#')[0]`.
File paths are modelled as their character lists. -/

/-- Origin path of the `i`-th (0-based) chunk of a file that produced
`numChunks` chunks: the file path, suffixed with `#chunk-` and the 1-based
ordinal exactly when the file produced more than one chunk. -/
def mkChunkPath (file : List Char) (numChunks i : Nat) : List Char :=
  if numChunks > 1 then file ++ ('#' :: ("chunk-" ++ toString (i + 1)).data) else file

/-- JavaScript `p.split('#')[0]`: the segment of `p` before the first `#`
(all of `p` when it has none), as used by `generateCodeSummaries` to regroup
chunks by file. -/
def splitHashHead : List Char → List Char
  | [] => []
  | c :: cs => if c = '#' then [] else c :: splitHashHead cs

/-- JavaScript `s.includes(pat)`. -/
def containsSub (s pat : List Char) : Bool :=
  (List.range (s.length + 1)).any (fun i => pat.isPrefixOf (s.drop i))

/-- Characters of `p` after its last `/` (the basename). -/
def basenameChars (p : List Char) : List Char :=
  p.foldl (fun acc c => if c = '/' then [] else acc ++ [c]) []

/-- Suffix of `b` starting at its last `.`, when `b` has one. -/
def lastDotSuffix : List Char → Option (List Char)
  | [] => none
  | c :: cs =>
    match lastDotSuffix cs with
    | some e => some e
    | none => if c = '.' then some (c :: cs) else none

/-- Node's `path.extname`: the basename's suffix from its last `.`, where a
leading `.` (dotfile) does not count. -/
def extname (p : List Char) : List Char :=
  match basenameChars p with
  | [] => []
  | _ :: cs =>
    match lastDotSuffix cs with
    | some e => e
    | none => []

/-- The `shouldProcessFile` filter of `CodeProcessor`: no ignored pattern may
occur in the path (JavaScript `includes`, so the `*.log` and `*.lock`
patterns match only literally) and the extension must be allow-listed. -/
def shouldProcessFile (filePath : List Char) : Bool :=
  let ignoredPatterns := ["node_modules/", ".git/", "dist/", "build/", ".next/",
    "coverage/", "*.log", "*.lock", "package-lock.json", "yarn.lock"]
  let processedExtensions := [".ts", ".tsx", ".js", ".jsx", ".py", ".java",
    ".cpp", ".c", ".md", ".mdx", ".txt", ".json", ".yaml", ".yml", ".sql", ".prisma"]
  if ignoredPatterns.any (fun pat => containsSub filePath pat.data) then false
  else processedExtensions.any (fun e => e.data = extname filePath)

/-! ## Chunker

Modelled from the spec: the text splitter used by `CodeProcessor` is
LangChain's `RecursiveCharacterTextSplitter`, a library external to this
repository (only its construction parameters appear in `code-processor.ts`).
Per the spec's contract: empty text yields zero chunks; text shorter than the
target size yields exactly one chunk with no overlap applied; longer text is
split on a priority-ordered separator list, recursively attempting the next
separator on any piece still exceeding the target size, and the pieces are
merged into chunks of about the target size with consecutive chunks sharing
about `overlap` trailing characters. -/

/-- Smallest index at which `sep` occurs in `t`. -/
def firstOcc (sep t : List Char) : Option Nat :=
  (List.range (t.length + 1)).find? (fun i => sep.isPrefixOf (t.drop i))

/-- Split `t` at every occurrence of `sep`, each piece keeping its trailing
separator; `fuel` bounds the number of pieces. -/
def splitKeepGo (sep : List Char) : Nat → List Char → List (List Char)
  | 0, t => [t]
  | fuel + 1, t =>
    match firstOcc sep t with
    | none => [t]
    | some i => t.take (i + sep.length) :: splitKeepGo sep fuel (t.drop (i + sep.length))

/-- Split on one separator; the empty separator means character-level
splitting (the splitter's last resort). -/
def splitOnSep (sep t : List Char) : List (List Char) :=
  if sep.isEmpty then t.map (fun c => [c]) else splitKeepGo sep t.length t

/-- Recursive separator cascade: split on the first separator, and re-split
any piece still exceeding the target size with the next separator. -/
def splitBySeps (chunkSize : Nat) : List (List Char) → List Char → List (List Char)
  | [], text => [text]
  | sep :: rest, text =>
    (splitOnSep sep text).flatMap (fun piece =>
      if piece.length ≤ chunkSize then [piece] else splitBySeps chunkSize rest piece)

/-- Greedily merge pieces into chunks of at most the target size; when a
chunk is closed, the next one starts with its last `overlap` characters. -/
def mergeWithOverlap (chunkSize overlap : Nat) : List (List Char) → List Char → List (List Char)
  | [], acc => if acc.isEmpty then [] else [acc]
  | p :: rest, acc =>
    if acc.length + p.length ≤ chunkSize then
      mergeWithOverlap chunkSize overlap rest (acc ++ p)
    else if acc.isEmpty then
      p :: mergeWithOverlap chunkSize overlap rest []
    else
      acc :: mergeWithOverlap chunkSize overlap rest (acc.drop (acc.length - overlap) ++ p)

/-- Modelled from the spec: the Chunker.  Empty text yields zero chunks, text
shorter than the target size yields exactly one chunk with no overlap, and
longer text goes through the recursive separator cascade and the overlap
merge. -/
def chunkText (chunkSize overlap : Nat) (seps : List (List Char)) (text : List Char) :
    List (List Char) :=
  if text.isEmpty then []
  else if text.length < chunkSize then [text]
  else mergeWithOverlap chunkSize overlap (splitBySeps chunkSize seps text) []

/-- The separator priority list configured in `CodeProcessor`. -/
def codeSeparators : List (List Char) :=
  ["\n\nclass ", "\n\nfunction ", "\n\nexport ",
   "\n\nconst ", "\n\nlet ", "\n\nvar ",
   "\n\n// ", "\n\n/*", "\n\n*/",
   "\n\n", "\n", " ", ""].map String.data

/-- The chunk-size parameter configured in `CodeProcessor`. -/
def configuredChunkSize : Nat := 1000

/-- The overlap parameter configured in `CodeProcessor`. -/
def configuredChunkOverlap : Nat := 200

/-! ## Query-context rendering (`generator.ts`, `generateQueryContext`)

The method groups the search results by `source_type` with a `reduce` over a
plain object (sections appear in order of first occurrence, each group
preserving result order), then accumulates the markdown string: header,
`Generated:` line, a `## Relevant Information` heading, and per group a
`### <TYPE UPPERCASED> Sources` heading followed by one block per result. -/

/-- Join a list of strings by plain concatenation. -/
def concatStrings : List String → String
  | [] => ""
  | s :: rest => s ++ concatStrings rest

/-- Model of JavaScript `x.toFixed(1)` for the non-negative exact values the
search yields: round to one decimal place, half upward. -/
def toFixed1 (x : ℚ) : String :=
  let n : Nat := (Rat.floor (x * 10 + 1 / 2)).toNat
  toString (n / 10) ++ "." ++ toString (n % 10)

/-- JavaScript `s.toUpperCase()` on the ASCII source-type tags. -/
def jsToUpperCase (s : String) : String :=
  String.mk (s.data.map Char.toUpper)

/-- The `reduce` grouping results by `source_type`: groups appear in first
occurrence order of their key and each keeps its results in input order. -/
def groupBySourceType (rs : List SearchRow) : List (String × List SearchRow) :=
  rs.foldl (fun acc r =>
    if acc.any (fun g => g.1 = r.source_type) then
      acc.map (fun g => if g.1 = r.source_type then (g.1, g.2 ++ [r]) else g)
    else acc ++ [(r.source_type, [r])]) []

/-- The markdown appended for the `index`-th (0-based) result of a group:
`#### Source <n>: <path>`, the `Similarity:` percentage line, and the fenced
raw content. -/
def renderItem (index : Nat) (chunk : SearchRow) : String :=
  "#### Source " ++ toString (index + 1) ++ ": " ++ chunk.file_path.getD "Unknown" ++ "\n" ++
  "Similarity: " ++ toFixed1 (chunk.similarity * 100) ++ "%\n\n" ++
  "```\n" ++ chunk.chunk_content ++ "\n```\n\n"

/-- The string accumulation of `generateQueryContext`, transcribed from the
two nested loops of the TypeScript. -/
def renderQueryContext (query generatedAt : String) (relevantChunks : List SearchRow) :
    String :=
  let grouped := groupBySourceType relevantChunks
  let base := "# Context for: \"" ++ query ++ "\"\n\n" ++
    "Generated: " ++ generatedAt ++ "\n\n" ++
    "## Relevant Information\n\n"
  grouped.foldl (fun content g =>
    (g.2.enum.foldl (fun c p => c ++ renderItem p.1 p.2)
      (content ++ "### " ++ jsToUpperCase g.1 ++ " Sources\n\n"))) base

/-- One source-type section in the shape the spec describes: heading plus the
enumerated items. -/
def renderSection (g : String × List SearchRow) : String :=
  "### " ++ jsToUpperCase g.1 ++ " Sources\n\n" ++
    concatStrings (g.2.enum.map (fun p => renderItem p.1 p.2))

/-- The rendered document in the compositional shape of the spec sentence,
including the `## Relevant Information` heading the code emits. -/
def renderedContextShape (query generatedAt : String) (rs : List SearchRow) : String :=
  "# Context for: \"" ++ query ++ "\"\n\n" ++
    "Generated: " ++ generatedAt ++ "\n\n" ++
    "## Relevant Information\n\n" ++
    concatStrings ((groupBySourceType rs).map renderSection)

/-- The document shape the claim literally describes: heading, timestamp
line, then directly the per-source-type sections (no intervening heading). -/
def claimedContextShape (query generatedAt : String) (rs : List SearchRow) : String :=
  "# Context for: \"" ++ query ++ "\"\n\n" ++
    "Generated: " ++ generatedAt ++ "\n\n" ++
    concatStrings ((groupBySourceType rs).map renderSection)

/-! ## Airtable adapter (`airtable-processor.ts`, `processTable`)

For every fetched record the adapter joins with blank lines the
`field: value` renderings of the fields whose value is a string longer than
10 characters, and yields a document only when the joined content is not
blank. -/

/-- An Airtable field value: a string, or any non-string value (number,
array, attachment, ...), which `typeof value === 'string'` rejects. -/
inductive FieldValue where
  | str (s : String)
  | other
deriving Repr, DecidableEq

/-- The string carried by a string field (irrelevant for non-string ones). -/
def FieldValue.getStr : FieldValue → String
  | .str s => s
  | .other => ""

/-- Whether the filter `typeof value === 'string' && value.length > 10`
keeps the field. -/
def FieldValue.isLongString : FieldValue → Bool
  | .str s => s.length > 10
  | .other => false

/-- The document content built from a record's fields:
`Object.entries(fields).filter(...).map(([k, v]) => k ++ ": " ++ v).join('\n\n')`. -/
def recordContent (fields : List (String × FieldValue)) : String :=
  String.intercalate "\n\n"
    ((fields.filter (fun kv => kv.2.isLongString)).map (fun kv => kv.1 ++ ": " ++ kv.2.getStr))

/-- The content the claim literally describes: one `field: value` entry per
string-valued field of the record, regardless of length. -/
def claimedRecordContent (fields : List (String × FieldValue)) : String :=
  String.intercalate "\n\n"
    ((fields.filter (fun kv => match kv.2 with
        | FieldValue.str _ => true
        | FieldValue.other => false)).map (fun kv => kv.1 ++ ": " ++ kv.2.getStr))

/-- Whether JavaScript `content.trim()` is falsy, i.e. the string has no
non-whitespace character. -/
def isBlank (s : String) : Bool :=
  s.data.all (fun c => c.isWhitespace)

/-- A fetched Airtable record: its id and its fields in enumeration order. -/
structure AirtableRecord where
  id : String
  fields : List (String × FieldValue)
deriving Repr, DecidableEq

/-- The `processTable` loop: one document per record with non-blank content,
with origin path `airtable/<table>/<record id>` and source type `design`. -/
def processTable (tableName projectId : String) (records : List AirtableRecord) :
    List ProcessedDocument :=
  records.foldl (fun docs record =>
    let content := recordContent record.fields
    if isBlank content then docs
    else docs ++ [{ content := content
                    filePath := "airtable/" ++ tableName ++ "/" ++ record.id
                    projectId := projectId
                    sourceType := "design"
                    metadata := [("fileType", "airtable"), ("table", tableName),
                                 ("recordId", record.id)] }]) []

/-! ## Query-context generation effects (`generator.ts`, `generateQueryContext`)

After the similarity search the method returns early — writing no file and
inserting no `knowledge_contexts` row — when the result set is missing or
empty (`if (!relevantChunks || relevantChunks.length === 0) return`). -/

/-- A row of the `knowledge_contexts` table as inserted by
`generateQueryContext`. -/
structure KnowledgeContextRow where
  project_id : String
  context_type : String
  title : String
  content : String
  file_path : String
  tags : List String
deriving Repr, DecidableEq

/-- The externally visible state `generateQueryContext` can touch: the files
written and the `knowledge_contexts` table. -/
structure KBState where
  files : List (String × String)
  knowledge_contexts : List KnowledgeContextRow
deriving Repr, DecidableEq

/-- The `generateQueryContext` method after its similarity search, as a state
transformer: `relevantChunks` is the search's result set (`none` models a
missing `data`).  On a missing or empty result set it returns with the state
unchanged; otherwise it renders the document, writes it to
`<outputPath>/<fileName>` and inserts a `knowledge_contexts` row. -/
def generateQueryContext (relevantChunks : Option (List SearchRow))
    (projectId query generatedAt outputPath fileName : String)
    (st : KBState) : KBState :=
  match relevantChunks with
  | none => st
  | some [] => st
  | some (r :: rs) =>
    let content := renderQueryContext query generatedAt (r :: rs)
    let filePath := outputPath ++ "/" ++ fileName
    { files := st.files ++ [(filePath, content)]
      knowledge_contexts := st.knowledge_contexts ++
        [{ project_id := projectId
           context_type := "query"
           title := "Context for: " ++ query
           content := content
           file_path := filePath
           tags := ["query", "generated"] }] }

/-! ## Concrete instances used to exercise the theorems -/

/-- Offset into the input list at which the first failing batch of a
`generateBatchEmbeddings` run starts: 100 times the index of the first batch
whose (truncated) request input the API rejects. -/
def firstFailedOffset (req : List String → Except String (List (List ℚ)))
    (texts : List String) : Option Nat :=
  (((batches texts).map (fun b => b.map truncate8000)).findIdx? (fun input =>
    match req input with
    | Except.error _ => true
    | Except.ok _ => false)).map (fun i => 100 * i)

/-- A distance function for the spec's search scenario: the chunk embedded as
`[1]` lies at cosine distance 1/20 from every query (similarity 0.95), every
other chunk at distance 1/2 (similarity 0.5). -/
def distScenario (emb : List ℚ) (_query : List ℚ) : ℚ :=
  if emb = [1] then 1 / 20 else 1 / 2

/-- The near chunk of the scenario (similarity 0.95 under `distScenario`). -/
def chunkNear : StoredChunk :=
  { id := 1, project_id := "p1", source_type := "code", file_path := "near.ts"
    chunk_content := "near", metadata := [], embedding := [1] }

/-- The far chunk of the scenario (similarity 0.5 under `distScenario`). -/
def chunkFar : StoredChunk :=
  { id := 2, project_id := "p1", source_type := "docs", file_path := "far.md"
    chunk_content := "far", metadata := [], embedding := [2] }

/-- A document whose embedding call will fail in the failing ingestion run. -/
def docA : ProcessedDocument :=
  { content := "A", filePath := "a.ts", projectId := "p1", sourceType := "code"
    metadata := [] }

/-- A document whose embedding call succeeds. -/
def docB : ProcessedDocument :=
  { content := "B", filePath := "b.ts", projectId := "p1", sourceType := "code"
    metadata := [] }

/-- An embedding outcome that fails exactly on `docA`'s content. -/
def embedFailA (s : String) : Except String (List ℚ) :=
  if s = "A" then Except.error "embed failed" else Except.ok [1]

/-- An embedding outcome that succeeds on every document. -/
def embedAllOk (_s : String) : Except String (List ℚ) :=
  Except.ok [1]

/-- The empty ingestion state. -/
def st0 : IngestState :=
  { store := [], nextId := 0, loggedErrors := [] }

/-- An input long enough for two embedding batches (101 texts). -/
def texts101 : List String :=
  List.replicate 101 "t"

/-- An API that rejects every request with the error value `boom`. -/
def reqFailEverything (_input : List String) : Except String (List (List ℚ)) :=
  Except.error "boom"

/-- An API that accepts full batches of 100 and rejects the rest with the
same error value `boom`: on `texts101` the first batch succeeds and the
second (starting at offset 100) fails. -/
def reqFailSecondBatch (input : List String) : Except String (List (List ℚ)) :=
  if input.length = 100 then Except.ok (input.map (fun _ => [])) else Except.error "boom"

/-- A search result used to evaluate the rendering. -/
def sampleRow : SearchRow :=
  { id := 0, project_id := "p1", source_type := "code", file_path := some "src/a.ts"
    chunk_content := "let x = 1", similarity := 9 / 10 }

/-- An Airtable record with one short and one long string field. -/
def sampleRecord : AirtableRecord :=
  { id := "rec1"
    fields := [("a", FieldValue.str "short"), ("b", FieldValue.str "this is long enough")] }

/-- The document `processTable` yields for `sampleRecord`. -/
def sampleDoc : ProcessedDocument :=
  { content := "b: this is long enough"
    filePath := "airtable/t1/rec1"
    projectId := "p1"
    sourceType := "design"
    metadata := [("fileType", "airtable"), ("table", "t1"), ("recordId", "rec1")] }

/-- The content of a record as the amended claim for the tabular adapter
describes it: one `field: value` entry per string-valued field whose value
is longer than 10 characters, joined by blank lines. -/
def amendedRecordContent (fields : List (String × FieldValue)) : String :=
  String.intercalate "\n\n"
    ((fields.filter (fun kv => match kv.2 with
        | FieldValue.str s => decide (s.length > 10)
        | FieldValue.other => false)).map (fun kv => kv.1 ++ ": " ++ kv.2.getStr))

/-- The empty knowledge-base state. -/
def kb0 : KBState :=
  { files := [], knowledge_contexts := [] }

/-! ## Theorems -/

/-- C1: re-ingesting the same (project, origin path) key with changed content
is claimed to replace the prior chunk, leaving exactly one chunk at that key.
The schema has no unique constraint on (project_id, file_path) and the upsert
names no conflict target, so it conflicts only on the freshly generated
primary key: running the chunk-write step twice on `src/a.ts` for project
`p1` leaves TWO chunks at that key instead of the claimed one. -/
theorem c1_reingest_duplicates_chunk :
    countAtKey (ingestChunkWrite (ingestChunkWrite [] 0 writeV1) 1 writeV2) "p1" "src/a.ts" = 2 := by
  decide

/-- C4 (amended): a per-document embedding or store failure is logged and the
document skipped, ingestion continues with the remaining documents, but the
process exit status does not reflect per-document failures: it is 0 whenever
project setup and knowledge-base generation succeed, and 1 only when a step
outside the per-document loop fails. -/
theorem c4_failures_logged_and_skipped (embedOf : String → Except String (List ℚ))
    (docs : List ProcessedDocument) (st : IngestState) :
    (ingestProjectRun (Except.ok ()) embedOf (Except.ok ()) docs st).2 = 0 ∧
    (ingestProjectRun (Except.ok ()) embedOf (Except.ok ()) docs st).1 =
      processDocuments embedOf st docs ∧
    (∀ d rest e, embedOf d.content = Except.error e →
      processDocuments embedOf st (d :: rest) =
        processDocuments embedOf
          { st with loggedErrors := st.loggedErrors ++ [e] } rest) ∧
    (∀ d rest emb, embedOf d.content = Except.ok emb →
      processDocuments embedOf st (d :: rest) =
        processDocuments embedOf
          { store := ingestChunkWrite st.store st.nextId
              { project_id := d.projectId, source_type := d.sourceType
                file_path := d.filePath, chunk_content := d.content
                metadata := d.metadata, embedding := emb }
            nextId := st.nextId + 1
            loggedErrors := st.loggedErrors } rest) ∧
    (∀ msg kbGen, (ingestProjectRun (Except.error msg) embedOf kbGen docs st).2 = 1) := by
  refine ⟨rfl, rfl, ?_, ?_, fun msg kbGen => rfl⟩
  · intro d rest e h
    simp [processDocuments, processDocument, h]
  · intro d rest emb h
    simp [processDocuments, processDocument, h]

/-- C4 witness: in a concrete run the failing document's error is logged and
processing continues with the remaining document. -/
theorem c4_witness :
    processDocuments embedFailA st0 [docA, docB] =
      processDocuments embedFailA
        { st0 with loggedErrors := st0.loggedErrors ++ ["embed failed"] } [docB] :=
  (c4_failures_logged_and_skipped embedFailA [docA, docB] st0).2.2.1 docA [docB]
    "embed failed" (by simp [embedFailA, docA])

/-- C4 counterexample: a run in which one document fails to embed finishes
with exit status 0, the same status as a fully successful run, so the exit
status does not distinguish a run with a per-document failure from a fully
successful one (the claim says it does). -/
theorem c4_counterexample :
    (ingestProjectRun (Except.ok ()) embedFailA (Except.ok ()) [docA, docB] st0).2 = 0 ∧
    (ingestProjectRun (Except.ok ()) embedFailA (Except.ok ()) [docA, docB] st0).1.loggedErrors
      = ["embed failed"] ∧
    (ingestProjectRun (Except.ok ()) embedAllOk (Except.ok ()) [docA, docB] st0).2 =
      (ingestProjectRun (Except.ok ()) embedFailA (Except.ok ()) [docA, docB] st0).2 := by
  refine ⟨rfl, by decide, by decide⟩

/-- C7: the Chunker (modelled from the spec, the splitter being LangChain
library code) returns zero chunks on empty text, and on any non-empty text
strictly shorter than the chunk-size parameter it returns exactly one chunk
equal to the input, with no overlap applied. -/
theorem c7_chunker_short_text (chunkSize overlap : Nat) (seps : List (List Char))
    (text : List Char) :
    chunkText chunkSize overlap seps [] = [] ∧
    (text ≠ [] → text.length < chunkSize →
      chunkText chunkSize overlap seps text = [text]) := by
  refine ⟨rfl, ?_⟩
  intro hne hlt
  simp [chunkText, hne, hlt]

/-- C7 witness: the configured chunker returns the 5-character text `hello`
as its single chunk. -/
theorem c7_witness :
    chunkText configuredChunkSize configuredChunkOverlap codeSeparators "hello".data =
      ["hello".data] :=
  (c7_chunker_short_text configuredChunkSize configuredChunkOverlap codeSeparators
    "hello".data).2 (by decide) (by decide)

/-- C10: when the similarity search yields a missing or empty result set,
`generateQueryContext` returns without writing any context file and without
inserting any knowledge-contexts row: the state is unchanged. -/
theorem c10_empty_results_no_effect (relevantChunks : Option (List SearchRow))
    (projectId query generatedAt outputPath fileName : String) (st : KBState)
    (h : relevantChunks = none ∨ relevantChunks = some []) :
    generateQueryContext relevantChunks projectId query generatedAt outputPath fileName st
      = st := by
  rcases h with h | h <;> subst h <;> rfl

/-- C10 witness: an empty result set leaves the empty knowledge-base state
unchanged. -/
theorem c10_witness :
    generateQueryContext (some []) "p1" "q" "TS" "out" "ctx.md" kb0 = kb0 :=
  c10_empty_results_no_effect (some []) "p1" "q" "TS" "out" "ctx.md" kb0 (Or.inr rfl)

/-- Splitting at the first hash leaves a hash-free list unchanged. -/
theorem splitHashHead_no_hash : ∀ (a : List Char), '#' ∉ a → splitHashHead a = a
  | [], _ => rfl
  | c :: cs, h => by
    have hc : ¬c = '#' := fun e => h (by simp [e])
    simp only [splitHashHead, if_neg hc]
    exact congrArg (c :: ·) (splitHashHead_no_hash cs (fun hm => h (List.mem_cons_of_mem c hm)))

/-- Splitting at the first hash recovers the part before an appended hash. -/
theorem splitHashHead_append : ∀ (a b : List Char), '#' ∉ a →
    splitHashHead (a ++ '#' :: b) = a
  | [], _, _ => by simp [splitHashHead]
  | c :: cs, b, h => by
    have hc : ¬c = '#' := fun e => h (by simp [e])
    simp only [List.cons_append, splitHashHead, if_neg hc]
    exact congrArg (c :: ·) (splitHashHead_append cs b (fun hm => h (List.mem_cons_of_mem c hm)))

/-- Stripping the chunk suffix recovers the file path when the file path
itself contains no hash character. -/
theorem strip_mkChunkPath (file : List Char) (n i : Nat) (hf : '#' ∉ file) :
    splitHashHead (mkChunkPath file n i) = file := by
  unfold mkChunkPath
  split
  · exact splitHashHead_append file _ hf
  · exact splitHashHead_no_hash file hf

/-- C6 (amended): for every processed file whose path contains no `#`
character, a multi-chunk file's chunks get the path suffixed with a 1-based
ordinal, a single-chunk file keeps the bare path, stripping at the first `#`
recovers the originating file path, and two chunks group to the same stripped
path exactly when they come from the same file. -/
theorem c6_chunk_path_roundtrip (file : List Char) (n i : Nat) (hf : '#' ∉ file) :
    (1 < n → mkChunkPath file n i = file ++ '#' :: ("chunk-" ++ toString (i + 1)).data) ∧
    (n ≤ 1 → mkChunkPath file n i = file) ∧
    splitHashHead (mkChunkPath file n i) = file ∧
    (∀ g m j, '#' ∉ g →
      (splitHashHead (mkChunkPath file n i) = splitHashHead (mkChunkPath g m j) ↔ file = g)) := by
  refine ⟨?_, ?_, strip_mkChunkPath file n i hf, ?_⟩
  · intro hn
    simp [mkChunkPath, hn]
  · intro hn
    simp [mkChunkPath, Nat.not_lt.mpr hn]
  · intro g m j hg
    rw [strip_mkChunkPath file n i hf, strip_mkChunkPath g m j hg]

/-- C6 witness: a hash-free path with three chunks round-trips: the first
chunk is stored at `src/foo.ts#chunk-1` and strips back to `src/foo.ts`. -/
theorem c6_witness :
    splitHashHead (mkChunkPath "src/foo.ts".data 3 0) = "src/foo.ts".data :=
  (c6_chunk_path_roundtrip "src/foo.ts".data 3 0 (by decide)).2.2.1

/-- C6 counterexample: the file `a#b.ts` passes the processor's file filter
and, producing a single chunk, gets the bare origin path `a#b.ts`; stripping
at the first `#` yields `a`, not the originating file path, so the claimed
round-trip fails on paths containing `#`. -/
theorem c6_counterexample :
    shouldProcessFile "a#b.ts".data = true ∧
    mkChunkPath "a#b.ts".data 1 0 = "a#b.ts".data ∧
    splitHashHead (mkChunkPath "a#b.ts".data 1 0) = "a".data ∧
    "a".data ≠ "a#b.ts".data := by
  refine ⟨by decide, by decide, by decide, by decide⟩

/-- The amended content formula coincides with the adapter's content
computation. -/
theorem amendedRecordContent_eq (fields : List (String × FieldValue)) :
    amendedRecordContent fields = recordContent fields := by
  unfold amendedRecordContent recordContent
  have hf : fields.filter (fun kv => match kv.2 with
      | FieldValue.str s => decide (s.length > 10)
      | FieldValue.other => false) = fields.filter (fun kv => kv.2.isLongString) := by
    apply List.filter_congr
    intro kv _
    rcases kv with ⟨k, v⟩
    cases v <;> rfl
  rw [hf]

/-- C9 (amended): every document the tabular-record adapter yields has as
content the blank-line-joined `field: value` renderings of the record's
string-valued fields whose value is longer than 10 characters. -/
theorem c9_record_content (tableName projectId : String) (records : List AirtableRecord) :
    ∀ d ∈ processTable tableName projectId records, ∃ rec ∈ records,
      d.content = amendedRecordContent rec.fields := by
  have key : ∀ (rs : List AirtableRecord) (acc : List ProcessedDocument)
      (d : ProcessedDocument),
      d ∈ rs.foldl (fun docs record =>
        let content := recordContent record.fields
        if isBlank content then docs
        else docs ++ [{ content := content
                        filePath := "airtable/" ++ tableName ++ "/" ++ record.id
                        projectId := projectId
                        sourceType := "design"
                        metadata := [("fileType", "airtable"), ("table", tableName),
                                     ("recordId", record.id)] }]) acc →
      d ∈ acc ∨ ∃ rec ∈ rs, d.content = recordContent rec.fields := by
    intro rs
    induction rs with
    | nil => exact fun acc d hd => Or.inl hd
    | cons r rs ih =>
      intro acc d hd
      rw [List.foldl_cons] at hd
      rcases ih _ d hd with hacc | ⟨rec, hrec, hc⟩
      · by_cases hemp : isBlank (recordContent r.fields)
        · simp only [hemp, if_true] at hacc
          exact Or.inl hacc
        · simp only [hemp, if_false] at hacc
          rcases List.mem_append.mp hacc with hmem | hmem
          · exact Or.inl hmem
          · refine Or.inr ⟨r, List.mem_cons_self r rs, ?_⟩
            rw [List.mem_singleton.mp hmem]
      · exact Or.inr ⟨rec, List.mem_cons_of_mem r hrec, hc⟩
  intro d hd
  rcases key records [] d hd with hmem | ⟨rec, hrec, hc⟩
  · cases hmem
  · exact ⟨rec, hrec, hc.trans (amendedRecordContent_eq rec.fields).symm⟩

/-- C9 witness: the document yielded for the sample record carries the
amended content formula of that record. -/
theorem c9_witness : ∃ rec ∈ [sampleRecord], sampleDoc.content = amendedRecordContent rec.fields :=
  c9_record_content "t1" "p1" [sampleRecord] sampleDoc (by decide)

/-- C9 counterexample: the sample record has two string-valued fields, but
the adapter keeps only the one longer than 10 characters, so the yielded
content differs from the claimed one-entry-per-string-field rendering. -/
theorem c9_counterexample :
    (processTable "t1" "p1" [sampleRecord]).map (fun d => d.content)
      = ["b: this is long enough"] ∧
    claimedRecordContent sampleRecord.fields = "a: short\n\nb: this is long enough" ∧
    ("b: this is long enough" : String) ≠ "a: short\n\nb: this is long enough" := by
  refine ⟨by decide, by decide, by decide⟩

/-- With enough fuel, flattening the batch slices gives back the input. -/
theorem batchesGo_flatten : ∀ (fuel : Nat) (texts : List String), texts.length ≤ fuel →
    (batchesGo fuel texts).flatMap id = texts
  | 0, texts, h => by
    have : texts = [] := List.eq_nil_of_length_eq_zero (Nat.le_zero.mp h)
    subst this
    rfl
  | fuel + 1, [], _ => rfl
  | fuel + 1, t :: ts, h => by
    have hlen : ((t :: ts).drop 100).length ≤ fuel := by
      rw [List.length_drop]
      simp only [List.length_cons] at h ⊢
      omega
    simp only [batchesGo, List.flatMap_cons, id_eq,
      batchesGo_flatten fuel ((t :: ts).drop 100) hlen]
    exact List.take_append_drop 100 (t :: ts)

/-- Every batch slice holds at most 100 texts. -/
theorem batchesGo_mem_le : ∀ (fuel : Nat) (texts : List String) (b : List String),
    b ∈ batchesGo fuel texts → b.length ≤ 100
  | 0, texts, b, h => by cases h
  | fuel + 1, [], b, h => by cases h
  | fuel + 1, t :: ts, b, h => by
    rcases List.mem_cons.mp h with rfl | h
    · rw [List.length_take]
      exact Nat.min_le_left _ _
    · exact batchesGo_mem_le fuel ((t :: ts).drop 100) b h

/-- With enough fuel and an API honouring the one-vector-per-input contract,
the batch loop issues exactly the truncated batch slices and returns the
truncated-and-embedded inputs in order. -/
theorem generateBatchEmbeddingsGo_ok (model : String → List ℚ) :
    ∀ (fuel : Nat) (texts : List String), texts.length ≤ fuel →
      generateBatchEmbeddingsGo (fun input => Except.ok (input.map model)) fuel texts =
        ((batchesGo fuel texts).map (fun b => b.map truncate8000),
         Except.ok (texts.map (fun t => model (truncate8000 t))))
  | 0, texts, h => by
    have : texts = [] := List.eq_nil_of_length_eq_zero (Nat.le_zero.mp h)
    subst this
    rfl
  | fuel + 1, [], _ => rfl
  | fuel + 1, t :: ts, h => by
    have hlen : ((t :: ts).drop 100).length ≤ fuel := by
      rw [List.length_drop]
      simp only [List.length_cons] at h ⊢
      omega
    simp only [generateBatchEmbeddingsGo, batchesGo,
      generateBatchEmbeddingsGo_ok model fuel ((t :: ts).drop 100) hlen, List.map_cons]
    refine congrArg (Prod.mk _) ?_
    have hm : List.map model (List.map truncate8000 (List.take 100 (t :: ts))) =
        List.map (fun s => model (truncate8000 s)) (List.take 100 (t :: ts)) := by
      rw [List.map_map]
      rfl
    rw [hm, ← List.map_append, List.take_append_drop, List.map_cons]

/-- C3: `generateBatchEmbeddings` partitions its input into consecutive
batches of at most 100 texts whose concatenation is the input, issues one
request per batch in order (each text truncated to 8000 characters), and —
under the API contract returning one vector per input text, in order —
returns exactly one vector per input text, the i-th output being
`generateEmbedding` applied to the i-th input. -/
theorem c3_batch_order_preserved (model : String → List ℚ) (texts : List String) :
    (batches texts).flatMap id = texts ∧
    (∀ b ∈ batches texts, b.length ≤ 100) ∧
    issuedRequests (fun input => Except.ok (input.map model)) texts =
      (batches texts).map (fun b => b.map truncate8000) ∧
    generateBatchEmbeddings (fun input => Except.ok (input.map model)) texts =
      Except.ok (texts.map (generateEmbedding model)) := by
  refine ⟨batchesGo_flatten texts.length texts (le_refl _),
    fun b hb => batchesGo_mem_le texts.length texts b hb, ?_, ?_⟩
  · unfold issuedRequests batches
    rw [generateBatchEmbeddingsGo_ok model texts.length texts (le_refl _)]
  · unfold generateBatchEmbeddings
    rw [generateBatchEmbeddingsGo_ok model texts.length texts (le_refl _)]
    exact rfl

/-- C3 witness: on two concrete texts the batch method returns the two
per-text embeddings in input order. -/
theorem c3_witness :
    generateBatchEmbeddings (fun input => Except.ok (input.map (fun _ => ([7] : List ℚ))))
      ["a", "b"] = Except.ok [[7], [7]] := by
  have h := (c3_batch_order_preserved (fun _ => ([7] : List ℚ)) ["a", "b"]).2.2.2
  simpa [generateEmbedding] using h

/-- When the batch loop ends in an error, the issued requests are a prefix of
the truncated batch slices whose last member failed with that very error and
whose earlier members all succeeded. -/
theorem generateBatchEmbeddingsGo_error (req : List String → Except String (List (List ℚ))) :
    ∀ (fuel : Nat) (texts : List String) (e : String),
      (generateBatchEmbeddingsGo req fuel texts).2 = Except.error e →
      ∃ pre last, (generateBatchEmbeddingsGo req fuel texts).1 = pre ++ [last] ∧
        req last = Except.error e ∧
        (∀ b ∈ pre, ∃ vs, req b = Except.ok vs) ∧
        (generateBatchEmbeddingsGo req fuel texts).1 =
          ((batchesGo fuel texts).map (fun b => b.map truncate8000)).take (pre.length + 1)
  | 0, texts, e, h => by simp [generateBatchEmbeddingsGo] at h
  | fuel + 1, [], e, h => by simp [generateBatchEmbeddingsGo] at h
  | fuel + 1, t :: ts, e, h => by
    cases hreq : req (((t :: ts).take 100).map truncate8000) with
    | error e0 =>
      simp only [generateBatchEmbeddingsGo, hreq] at h ⊢
      cases h
      refine ⟨[], ((t :: ts).take 100).map truncate8000, rfl, hreq, by simp, ?_⟩
      simp [batchesGo]
    | ok vs =>
      simp only [generateBatchEmbeddingsGo, hreq] at h ⊢
      cases h2 : (generateBatchEmbeddingsGo req fuel ((t :: ts).drop 100)).2 with
      | ok ws => rw [h2] at h; simp at h
      | error e2 =>
        rw [h2] at h
        simp only [Except.error.injEq] at h
        subst h
        obtain ⟨pre, last, h1, hq, hpre, h4⟩ :=
          generateBatchEmbeddingsGo_error req fuel ((t :: ts).drop 100) e2 h2
        simp only [List.drop_succ_cons] at h1 h4
        refine ⟨((t :: ts).take 100).map truncate8000 :: pre, last, by simp [h1], hq, ?_, ?_⟩
        · intro b hb
          rcases List.mem_cons.mp hb with rfl | hb
          · exact ⟨vs, hreq⟩
          · exact hpre b hb
        · simp [batchesGo, h4, List.take_succ_cons]

/-- C5 (amended): a failing embedding request aborts the batch loop — the
issued requests stop at the failing batch — and the request's own error value
propagates unchanged to the caller; no batch offset is attached to it. -/
theorem c5_failure_aborts_and_propagates (req : List String → Except String (List (List ℚ)))
    (texts : List String) (e : String)
    (h : generateBatchEmbeddings req texts = Except.error e) :
    ∃ pre last, issuedRequests req texts = pre ++ [last] ∧
      req last = Except.error e ∧
      (∀ b ∈ pre, ∃ vs, req b = Except.ok vs) ∧
      issuedRequests req texts =
        ((batches texts).map (fun b => b.map truncate8000)).take (pre.length + 1) :=
  generateBatchEmbeddingsGo_error req texts.length texts e h

/-- C5 witness: with an API rejecting everything with error `boom`, the loop
issues exactly one request, that request fails with `boom`, and `boom` is
what the caller receives. -/
theorem c5_witness :
    ∃ pre last, issuedRequests reqFailEverything texts101 = pre ++ [last] ∧
      reqFailEverything last = Except.error "boom" ∧
      (∀ b ∈ pre, ∃ vs, reqFailEverything b = Except.ok vs) ∧
      issuedRequests reqFailEverything texts101 =
        ((batches texts101).map (fun b => b.map truncate8000)).take (pre.length + 1) :=
  c5_failure_aborts_and_propagates reqFailEverything texts101 "boom" rfl

/-- C5 counterexample: two runs on the same 101-text input whose first
failing batches start at offsets 0 and 100 respectively return the very same
value to the caller, so the propagated failure cannot carry the failed
batch's starting offset, contrary to the claim. -/
theorem c5_counterexample :
    generateBatchEmbeddings reqFailEverything texts101 = Except.error "boom" ∧
    generateBatchEmbeddings reqFailSecondBatch texts101 = Except.error "boom" ∧
    firstFailedOffset reqFailEverything texts101 = some 0 ∧
    firstFailedOffset reqFailSecondBatch texts101 = some 100 ∧
    (0 : Nat) ≠ 100 := by
  refine ⟨rfl, rfl, by decide, by decide, by decide⟩

/-- C2: `search_similar_chunks` returns only rows whose similarity strictly
exceeds the threshold, sorted by non-increasing similarity (nearest first),
at most `match_count` of them, and only rows of the filtered project when a
project filter is given — for any distance operator, table, query and
parameters. -/
theorem c2_search_contract (dist : List ℚ → List ℚ → ℚ) (table : List StoredChunk)
    (q : List ℚ) (pf : Option String) (th : ℚ) (lim : Nat) :
    (∀ r ∈ search_similar_chunks dist table q pf th lim, r.similarity > th) ∧
    (search_similar_chunks dist table q pf th lim).Sorted
      (fun a b => a.similarity ≥ b.similarity) ∧
    (search_similar_chunks dist table q pf th lim).length ≤ lim ∧
    (∀ p, pf = some p → ∀ r ∈ search_similar_chunks dist table q pf th lim,
      r.project_id = p) := by
  have hmem : ∀ r ∈ search_similar_chunks dist table q pf th lim, ∃ c,
      ((match pf with
        | none => true
        | some p => decide (c.project_id = p)) &&
        decide (1 - dist c.embedding q > th)) = true ∧ r = toSearchRow dist q c := by
    intro r hr
    simp only [search_similar_chunks, List.mem_map] at hr
    obtain ⟨c, hc, rfl⟩ := hr
    have hc2 := (List.take_sublist lim _).subset hc
    rw [List.mem_insertionSort] at hc2
    exact ⟨c, (List.mem_filter.mp hc2).2, rfl⟩
  refine ⟨?_, ?_, ?_, ?_⟩
  · intro r hr
    obtain ⟨c, hpred, rfl⟩ := hmem r hr
    simp only [Bool.and_eq_true, decide_eq_true_eq] at hpred
    exact hpred.2
  · haveI : IsTotal StoredChunk
        (fun a b => dist a.embedding q ≤ dist b.embedding q) :=
      ⟨fun a b => le_total _ _⟩
    haveI : IsTrans StoredChunk
        (fun a b => dist a.embedding q ≤ dist b.embedding q) :=
      ⟨fun _ _ _ hab hbc => le_trans hab hbc⟩
    have hs := List.sorted_insertionSort
      (fun a b => dist a.embedding q ≤ dist b.embedding q)
      (table.filter (fun dc =>
        (match pf with
         | none => true
         | some p => decide (dc.project_id = p)) &&
        decide (1 - dist dc.embedding q > th)))
    have hst := List.Pairwise.sublist (List.take_sublist lim _) hs
    exact List.Pairwise.map (toSearchRow dist q)
      (fun a b hab => sub_le_sub_left hab 1) hst
  · simp only [search_similar_chunks, List.length_map, List.length_take]
    exact Nat.min_le_left _ _
  · intro p hp r hr
    obtain ⟨c, hpred, rfl⟩ := hmem r hr
    subst hp
    simp only [Bool.and_eq_true, decide_eq_true_eq] at hpred
    exact hpred.1

/-- C2 witness: in the spec's scenario — one chunk at similarity 0.95 and
one at 0.5, threshold 0.7, limit 10 — exactly the near chunk is returned,
and by the contract every returned row exceeds the threshold. -/
theorem c2_witness :
    search_similar_chunks distScenario [chunkNear, chunkFar] [0] none (7 / 10) 10 =
      [toSearchRow distScenario [0] chunkNear] ∧
    ∀ r ∈ search_similar_chunks distScenario [chunkNear, chunkFar] [0] none (7 / 10) 10,
      r.similarity > 7 / 10 := by
  refine ⟨?_, (c2_search_contract distScenario [chunkNear, chunkFar] [0] none (7 / 10) 10).1⟩
  have hN : ((1 : ℚ) - distScenario chunkNear.embedding [0] > 7 / 10) := by
    norm_num [distScenario, chunkNear]
  have hF : ¬((1 : ℚ) - distScenario chunkFar.embedding [0] > 7 / 10) := by
    norm_num [distScenario, chunkFar]
  simp [search_similar_chunks, List.filter_cons, hN, hF]

/-- Accumulating appends in a left fold equals appending the concatenated
per-element strings. -/
theorem foldl_append_concat {α : Type} (f : α → String) :
    ∀ (l : List α) (s : String),
      l.foldl (fun acc a => acc ++ f a) s = s ++ concatStrings (l.map f)
  | [], s => by simp [concatStrings]
  | a :: l, s => by
    rw [List.map_cons, List.foldl_cons, foldl_append_concat f l (s ++ f a)]
    simp [concatStrings, String.append_assoc]

/-- The nested accumulation of `generateQueryContext` equals the
concatenation of the per-group sections. -/
theorem render_fold_sections :
    ∀ (l : List (String × List SearchRow)) (s : String),
      l.foldl (fun content g =>
        (g.2.enum.foldl (fun c p => c ++ renderItem p.1 p.2)
          (content ++ "### " ++ jsToUpperCase g.1 ++ " Sources\n\n"))) s
      = s ++ concatStrings (l.map renderSection)
  | [], s => by simp [concatStrings]
  | g :: l, s => by
    rw [List.foldl_cons, foldl_append_concat (fun p => renderItem p.1 p.2) g.2.enum,
      render_fold_sections l]
    simp [renderSection, concatStrings, String.append_assoc]

/-- The imperative accumulation of the rendering method equals the
compositional shape: header, timestamp line, `## Relevant Information`
heading, then one section per source-type group. -/
theorem renderQueryContext_shape (query generatedAt : String) (rs : List SearchRow) :
    renderQueryContext query generatedAt rs = renderedContextShape query generatedAt rs := by
  unfold renderQueryContext renderedContextShape
  rw [render_fold_sections]

/-- C8 (amended): the rendered context document is exactly the heading
`# Context for: "<query>"`, the generation timestamp line, a
`## Relevant Information` heading, and one `### <TYPE UPPERCASED> Sources`
section per source-type group whose items are rendered as
`#### Source <n>: <path>`, a `Similarity: <pct>%` line (one decimal place),
and a fenced block with the chunk's raw content. -/
theorem c8_render_format (query generatedAt : String) (rs : List SearchRow) :
    renderQueryContext query generatedAt rs = renderedContextShape query generatedAt rs :=
  renderQueryContext_shape query generatedAt rs

/-- C8 counterexample: on a one-result input the rendered document differs
from the claimed shape, which omits the `## Relevant Information` heading
that the code emits between the timestamp line and the sections. -/
theorem c8_counterexample :
    renderQueryContext "q" "TS" [sampleRow] ≠ claimedContextShape "q" "TS" [sampleRow] := by
  intro h
  rw [renderQueryContext_shape] at h
  unfold renderedContextShape claimedContextShape at h
  have hl := congrArg String.length h
  have h25 : String.length "## Relevant Information\n\n" = 25 := rfl
  simp only [String.length_append] at hl
  omega

end RagSystem
